import Mathlib

/-!
Verification of the `files` / `test_support` / `test_detection` packages of
`cristiandonosoc/golib`, shallowly embedded in Lean.

Bytes of file content are modelled as `List Char` (all inputs of interest are
ASCII); the filesystem is modelled as a pair of oracles (`stat`, `read`);
Go pointer mutation of a `LoadedFile` (`lf.Stat = stat`, `lf.lines = lines`)
is modelled by returning the updated record, updating the aliasing map entry
where the source's map stores the same pointer.
-/

set_option autoImplicit false

deriving instance DecidableEq for Except

namespace Golib

/-- Abstract snapshot of `fs.FileInfo` (contents never inspected by the code
under study). -/
structure FileInfo where
  size : Nat
deriving DecidableEq, Repr

/-- Embedding of `LoadedFile` (src/pkg/files/files.go).  The unset fields of
the Go composite literal `&LoadedFile{Key: key, Data: data}` are zero values,
hence the defaults: `lines = nil`, `FromFile = false`, `Stat = nil`. -/
structure LoadedFile where
  Key : String
  Data : List Char
  lines : Option (List (List Char)) := none
  FromFile : Bool := false
  Stat : Option FileInfo := none
deriving DecidableEq, Repr

/-- `bufio.MaxScanTokenSize`: the default maximal token size of a
`bufio.Scanner`. -/
def maxScanTokenSize : Nat := 65536

/-- Maximal `'\n'`-free segments of the input, in order; always nonempty
(the final segment is the text after the last terminator, possibly empty). -/
def splitSegs : List Char → List (List Char)
  | [] => [[]]
  | c :: rest =>
    if c = '\n' then [] :: splitSegs rest
    else
      match splitSegs rest with
      | [] => [[c]]
      | s :: ss => (c :: s) :: ss

/-- `dropCR` of `bufio.ScanLines`: strip one trailing `'\r'` from a token. -/
def dropCR (l : List Char) : List Char :=
  if l.getLast? = some '\r' then l.dropLast else l

/-- The tokens produced by a full `bufio.Scanner`/`bufio.ScanLines` run:
every segment is a token except a final empty segment (at EOF with an empty
buffer, `Scan` returns false, so a trailing terminator yields no extra empty
line), and each token has a trailing `'\r'` stripped. -/
def scanTokens (data : List Char) : List (List Char) :=
  let segs := splitSegs data
  (if segs.getLast? = some [] then segs.dropLast else segs).map dropCR

/-- Failure of the line scan. -/
inductive ScanError
  | tooLong
deriving DecidableEq, Repr

/-- Outcome of scanning `data` line by line with a default `bufio.Scanner`:
the scanner stops with `ErrTooLong` when a `'\n'`-free segment fills the
maximal buffer (length `≥ maxScanTokenSize`), otherwise it produces the
line tokens. -/
def scanLines (data : List Char) : Except ScanError (List (List Char)) :=
  if (splitSegs data).any (fun s => decide (maxScanTokenSize ≤ s.length)) then
    .error .tooLong
  else
    .ok (scanTokens data)

/-- Embedding of `(*LoadedFile).Lines` (src/pkg/files/files.go:82-101),
instrumented: returns the result, the updated record (the receiver is mutated
through a pointer in Go), and whether this call performed the scan.

The source assigns `lf.lines = lines` where `lines` is a nil slice whenever
the scan produced no line; a nil slice is indistinguishable from the unset
field, so the memo stays `none` in that case. -/
def LoadedFile.Lines (lf : LoadedFile) :
    Except ScanError (List (List Char)) × LoadedFile × Bool :=
  match lf.lines with
  | some ls => (.ok ls, lf, false)
  | none =>
    match scanLines lf.Data with
    | .error e => (.error e, lf, true)
    | .ok ls => (.ok ls, { lf with lines := if ls = [] then none else some ls }, true)

/-- Embedding of `(*LoadedFile).Path` (src/pkg/files/files.go:73-79). -/
def LoadedFile.Path (lf : LoadedFile) : String :=
  if lf.FromFile then lf.Key else ""

/-- Errors surfaced by the cache operations. -/
inductive CacheError
  | statFailed (path : String)
  | readFailed (path : String)
  | keyInUse (key : String)
deriving DecidableEq, Repr

/-- The filesystem, as the two oracles the cache consults: `os.Stat` and
`os.ReadFile` (each `none` when the corresponding call fails). -/
structure Fs where
  stat : String → Option FileInfo
  read : String → Option (List Char)

/-- A filesystem access performed by a cache operation. -/
inductive FsOp
  | stat (path : String)
  | read (path : String)
deriving DecidableEq, Repr

/-- Embedding of `fileCache` (src/pkg/files/file_cache.go, final revision).
The `sync.Mutex` field has no pure content; it is accounted for by the
lock-annotated traces below. -/
structure fileCache where
  files : String → Option LoadedFile
  useCache : Bool

/-- Go map assignment `fc.files[key] = file`. -/
def fileCache.store (fc : fileCache) (key : String) (file : LoadedFile) : fileCache :=
  { fc with files := fun k => if k = key then some file else fc.files k }

/-- Embedding of `(*fileCache).QueryKey` (src/pkg/files/file_cache.go:187-197). -/
def fileCache.QueryKey (fc : fileCache) (key : String) : Bool × Option LoadedFile :=
  if !fc.useCache then (false, none)
  else
    match fc.files key with
    | some file => (true, some file)
    | none => (false, none)

/-- Embedding of `(*fileCache).NewFromData`
(src/pkg/files/file_cache.go:233-256): collision check only when
`useCache && !overwrite`; the record is stored only when `useCache`. -/
def fileCache.NewFromData (fc : fileCache) (key : String) (data : List Char)
    (overwrite : Bool) : Except CacheError LoadedFile × fileCache :=
  if fc.useCache && !overwrite && (fc.files key).isSome then
    (.error (.keyInUse key), fc)
  else
    let file : LoadedFile := { Key := key, Data := data }
    (.ok file, if fc.useCache then fc.store key file else fc)

/-- Embedding of `(*fileCache).LoadFromPath`
(src/pkg/files/file_cache.go:201-228), instrumented with the list of
filesystem accesses the call performs.  The assignment `lf.Stat = stat`
mutates the record `NewFromData` just stored through its pointer, so the map
entry (present exactly when `useCache`) is updated alongside the returned
record. -/
def fileCache.LoadFromPath (fc : fileCache) (fs : Fs) (key path : String)
    (overwrite : Bool) : Except CacheError LoadedFile × fileCache × List FsOp :=
  match (if fc.useCache && !overwrite then fc.files key else none) with
  | some lf => (.ok lf, fc, [])
  | none =>
    match fs.stat path with
    | none => (.error (.statFailed path), fc, [.stat path])
    | some st =>
      match fs.read path with
      | none => (.error (.readFailed path), fc, [.stat path, .read path])
      | some data =>
        match fc.NewFromData key data overwrite with
        | (.error e, fc') => (.error e, fc', [.stat path, .read path])
        | (.ok file, fc') =>
          let file' := { file with Stat := some st }
          (.ok file', if fc'.useCache then fc'.store key file' else fc',
            [.stat path, .read path])

/-- An atomic action of a cache operation on shared state, for the lock
discipline analysis. -/
inductive CacheAction
  | mapRead (key : String)
  | mapWrite (key : String)
  | fsStat (path : String)
  | fsRead (path : String)
deriving DecidableEq, Repr

/-- The shared-state actions performed by `(*fileCache).QueryKey`, each paired
with whether `fc.mu` is held while it runs.  The source takes no lock: the
map read at file_cache.go:192 happens with the lock not held. -/
def fileCache.QueryKeyTrace (fc : fileCache) (key : String) :
    List (CacheAction × Bool) :=
  if !fc.useCache then []
  else [(.mapRead key, false)]

/-- The shared-state actions of `(*fileCache).NewFromData` with the lock-held
flag: the collision check (file_cache.go:237) reads the map before
`fc.mu.Lock()`; only the insertion (file_cache.go:252) runs under the lock. -/
def fileCache.NewFromDataTrace (fc : fileCache) (key : String)
    (overwrite : Bool) : List (CacheAction × Bool) :=
  (if fc.useCache && !overwrite then [(.mapRead key, false)] else []) ++
    (if fc.useCache && !overwrite && (fc.files key).isSome then
      []
    else if fc.useCache then [(.mapWrite key, true)]
    else [])

/-- The shared-state actions of `(*fileCache).LoadFromPath` with the
lock-held flag: the cached-hit check (file_cache.go:205) reads the map with
the lock not held. -/
def fileCache.LoadFromPathTrace (fc : fileCache) (fs : Fs) (key path : String)
    (overwrite : Bool) : List (CacheAction × Bool) :=
  (if fc.useCache && !overwrite then [(.mapRead key, false)] else []) ++
    (if fc.useCache && !overwrite && (fc.files key).isSome then []
    else
      match fs.stat path with
      | none => [(.fsStat path, false)]
      | some _ =>
        match fs.read path with
        | none => [(.fsStat path, false), (.fsRead path, false)]
        | some _ =>
          [(.fsStat path, false), (.fsRead path, false)] ++
            fc.NewFromDataTrace key overwrite)

end Golib

namespace Golib.FlagRev

/-!
Embedding of the intermediate revision of the cache (src/unnamed/part_001),
whose `fileCache` carries a `DisallowKeyCollision` boolean instead of the
final revision's test-derived `useCache` bypass.
-/

/-- `fileCache` of the intermediate revision (src/unnamed/part_001:47-52). -/
structure fileCache where
  files : String → Option LoadedFile
  DisallowKeyCollision : Bool

/-- Embedding of `(*fileCache).NewFromData` of the intermediate revision
(src/unnamed/part_001:93-108).  In the source, the inner
`if _, ok := fc.files[key]; ok { }` has an empty body, so the
`return nil, fmt.Errorf("key %q is already in use", key)` that follows is
unconditional within the outer branch. -/
def fileCache.NewFromData (fc : FlagRev.fileCache) (key : String)
    (data : List Char) (overwrite : Bool) :
    Except CacheError LoadedFile × FlagRev.fileCache :=
  if !fc.DisallowKeyCollision && !overwrite then
    (.error (.keyInUse key), fc)
  else
    let file : LoadedFile := { Key := key, Data := data }
    (.ok file,
      { fc with files := fun k => if k = key then some file else fc.files k })

end Golib.FlagRev

namespace Golib

/-- Embedding of `test_detection.RunningAsBazelTest` (src/unnamed/part_000:
30-58) as a pure function of the process environment (the `sync.Once`
memoization computes the same value once). -/
def RunningAsBazelTest (env : String → String) : Bool :=
  if env "BAZEL_TEST" = "1" then true
  else if env "TEST_TARGET" = "" then false
  else if env "TEST_WORKSPACE" = "" then false
  else if env "TEST_TMPDIR" = "" then false
  else true

/-- Embedding of `test_support.TestTmpBase` (src/pkg/files/files.go section of
test_support, lines 117-124): the statement `os.Getenv("TEST_TMPDIR")`
discards its result, and the function falls through to `return ""`. -/
def TestTmpBase (env : String → String) : String :=
  if RunningAsBazelTest env then
    let _discarded := env "TEST_TMPDIR"
    ""
  else ""

/-! ### Concrete fixtures -/

/-- A record as first stored under key `"k"`. -/
def lfOrig : LoadedFile := { Key := "k", Data := "orig".data }

/-- A normal-mode cache (no bypass) holding `lfOrig` under `"k"`. -/
def fcHit : fileCache :=
  { files := fun k => if k = "k" then some lfOrig else none, useCache := true }

/-- A normal-mode cache with an empty table. -/
def fcFresh : fileCache := { files := fun _ => none, useCache := true }

/-- A bypass-mode cache whose table nevertheless holds `lfOrig`. -/
def fcBypass : fileCache :=
  { files := fun k => if k = "k" then some lfOrig else none, useCache := false }

/-- A filesystem holding one file at `"p"` with content `"abc"`. -/
def fsW : Fs :=
  { stat := fun p => if p = "p" then some { size := 3 } else none,
    read := fun p => if p = "p" then some "abc".data else none }

/-- The record produced by loading `"p"` from `fsW` under key `"k"`. -/
def lfDisk : LoadedFile :=
  { Key := "k", Data := "abc".data, Stat := some { size := 3 } }

/-- The cache state after `fcFresh.LoadFromPath fsW "k" "p" false`: the map
entry aliases the returned record, whose `Stat` was assigned after the
insertion. -/
def fcLoaded : fileCache :=
  (fcFresh.store "k" { Key := "k", Data := "abc".data }).store "k" lfDisk

/-- A record with empty content. -/
def emptyFile : LoadedFile := { Key := "e", Data := [] }

/-- A one-line record. -/
def oneLineFile : LoadedFile := { Key := "w", Data := "a".data }

/-- `oneLineFile` after its lines have been memoized. -/
def oneLineFileMemo : LoadedFile :=
  { Key := "w", Data := "a".data, lines := some ["a".data] }

/-- A record whose single line fills the scanner's maximal buffer. -/
def longFile : LoadedFile :=
  { Key := "big", Data := List.replicate maxScanTokenSize 'a' }

/-- An environment in which the Bazel override variable is set. -/
def bazelEnv : String → String := fun v => if v = "BAZEL_TEST" then "1" else ""

/-- A flag-revision cache with the collision flag unset, holding `lfOrig`
under `"k"`. -/
def flagCache : FlagRev.fileCache :=
  { files := fun k => if k = "k" then some lfOrig else none,
    DisallowKeyCollision := false }

/-! ### Helper lemmas -/

/-- A terminator-free input is a single segment. -/
theorem splitSegs_no_newline (l : List Char) : '\n' ∉ l → splitSegs l = [l] := by
  induction l with
  | nil => intro _; rfl
  | cons c rest ih =>
    intro h
    have hc : ¬(c = '\n') := by
      rintro rfl
      exact h (List.mem_cons_self _ _)
    have hr : '\n' ∉ rest := fun hm => h (List.mem_cons_of_mem _ hm)
    simp [splitSegs, hc, ih hr]

/-- A single terminator-free line of maximal-buffer length makes the scan
fail with the too-long error. -/
theorem scanLines_longLine :
    scanLines (List.replicate maxScanTokenSize 'a') = .error .tooLong := by
  have hnl : '\n' ∉ List.replicate maxScanTokenSize 'a' := by
    intro hm
    rw [List.mem_replicate] at hm
    exact absurd hm.2 (by decide)
  unfold scanLines
  rw [splitSegs_no_newline _ hnl]
  simp [List.length_replicate]

/-! ### Claims -/

/-- Claim C6: `Lines` splits with standard line-scanning semantics: a record
created from `"a\nb\nc"` yields the lines `["a","b","c"]`, and a trailing
terminator does not produce an extra empty line, so a record created from
`"a\nb\n"` yields `["a","b"]`. -/
theorem lines_split_examples :
    (LoadedFile.Lines { Key := "k1", Data := "a\nb\nc".data }).1
        = .ok ["a".data, "b".data, "c".data] ∧
    (LoadedFile.Lines { Key := "k2", Data := "a\nb\n".data }).1
        = .ok ["a".data, "b".data] := by
  decide

/-- Claim C4, counterexample: on a record with empty `Data`, `Lines` succeeds
but memoizes nothing (the Go nil slice is indistinguishable from the unset
field), so the next call performs the scan again — refuting "after any
successful `Lines()` call, including a record whose `Data` is empty, every
later `Lines()` call returns the memoized sequence without performing the
scan again". -/
theorem lines_empty_data_rescans :
    (emptyFile.Lines).1 = .ok [] ∧
    (emptyFile.Lines).2.1.lines = none ∧
    ((emptyFile.Lines).2.1.Lines).2.2 = true := by
  decide

/-- Claim C4, amended: after a successful `Lines()` call whose result is a
nonempty list of lines, the record carries the memo, every later call returns
it without performing the scan again, and the memoized value is the scan of
the record's `Data` when the memo was not already present. -/
theorem lines_memoized_nonempty (lf lf' : LoadedFile) (ls : List (List Char))
    (s : Bool) (h : lf.Lines = (.ok ls, lf', s)) (hne : ls ≠ []) :
    lf'.lines = some ls ∧ lf'.Lines = (.ok ls, lf', false) ∧
    (lf.lines = none → scanLines lf.Data = .ok ls) := by
  unfold LoadedFile.Lines at h
  split at h
  next ls0 hmem =>
    rw [Prod.mk.injEq, Prod.mk.injEq, Except.ok.injEq] at h
    obtain ⟨rfl, rfl, -⟩ := h
    refine ⟨hmem, ?_, fun hnone => ?_⟩
    · unfold LoadedFile.Lines
      rw [hmem]
    · rw [hnone] at hmem
      cases hmem
  next hmem =>
    split at h
    next e hscan => simp at h
    next ls1 hscan =>
      rw [Prod.mk.injEq, Prod.mk.injEq, Except.ok.injEq] at h
      obtain ⟨rfl, rfl, -⟩ := h
      rw [if_neg hne]
      exact ⟨rfl, by unfold LoadedFile.Lines; rfl, fun _ => hscan⟩

/-- Witness for the amended claim C4, on a one-line record. -/
theorem lines_memoized_nonempty_witness :
    oneLineFileMemo.lines = some ["a".data] ∧
    oneLineFileMemo.Lines = (.ok ["a".data], oneLineFileMemo, false) ∧
    (oneLineFile.lines = none → scanLines oneLineFile.Data = .ok ["a".data]) :=
  lines_memoized_nonempty oneLineFile oneLineFileMemo ["a".data] true
    (by decide) (by decide)

/-- Claim C7: if the line scan fails, the call returns the error and leaves
the record without a memoized value, so a subsequent `Lines()` call performs
the scan again — a first failure does not poison the record. -/
theorem lines_error_retry (lf : LoadedFile) (e : ScanError)
    (h0 : lf.lines = none) (h1 : scanLines lf.Data = .error e) :
    lf.Lines = (.error e, lf, true) ∧
    (lf.Lines).2.1.Lines = (.error e, lf, true) := by
  have hL : lf.Lines = (.error e, lf, true) := by
    unfold LoadedFile.Lines
    rw [h0, h1]
  exact ⟨hL, by rw [hL]; exact hL⟩

/-- Witness for claim C7, at a record whose single line fills the maximal
scanner buffer. -/
theorem lines_error_retry_witness :
    longFile.Lines = (.error .tooLong, longFile, true) ∧
    (longFile.Lines).2.1.Lines = (.error .tooLong, longFile, true) :=
  lines_error_retry longFile .tooLong rfl scanLines_longLine

/-- Claim C10: `TestTmpBase` returns the empty string in every environment;
even when the process is detected as running under Bazel, the value of
`TEST_TMPDIR` is discarded and the function falls through to `""`. -/
theorem testTmpBase_always_empty :
    (∀ env : String → String, TestTmpBase env = "") ∧
    RunningAsBazelTest bazelEnv = true ∧ TestTmpBase bazelEnv = "" := by
  refine ⟨fun env => ?_, by decide, by decide⟩
  unfold TestTmpBase
  split <;> rfl

/-- Claim C1: divergence at a successful path load — the stored and returned
record has `FromFile = false` and `Path() = ""` because no code path ever
assigns `FromFile`; the in-memory half of the claim (injection yields
`FromFile = false`, `Path() = ""`) does hold. -/
theorem fromFile_never_set :
    (fcFresh.LoadFromPath fsW "k" "p" false).1 = .ok lfDisk ∧
    lfDisk.FromFile = false ∧ lfDisk.Path = "" ∧
    (fcFresh.NewFromData "mem" "xyz".data false).1
        = .ok { Key := "mem", Data := "xyz".data } ∧
    LoadedFile.FromFile { Key := "mem", Data := "xyz".data } = false ∧
    LoadedFile.Path { Key := "mem", Data := "xyz".data } = "" := by
  decide

/-- Storing a record does not change the bypass flag. -/
theorem store_useCache (fc : fileCache) (key : String) (file : LoadedFile) :
    (fc.store key file).useCache = fc.useCache := rfl

/-- Cached-hit behaviour of `LoadFromPath`: bypass off, `overwrite = false`,
key present — the existing record is returned unchanged with no filesystem
access. -/
theorem loadFromPath_hit (fc : fileCache) (fs : Fs) (key path : String)
    (lf : LoadedFile) (hc : fc.useCache = true) (hk : fc.files key = some lf) :
    fc.LoadFromPath fs key path false = (.ok lf, fc, []) := by
  simp [fileCache.LoadFromPath, hc, hk]

/-- Value of a missing-key `LoadFromPath` when both filesystem calls succeed
(bypass off, `overwrite = false`). -/
theorem loadFromPath_miss (fc : fileCache) (fs : Fs) (key path : String)
    (st : FileInfo) (data : List Char) (hc : fc.useCache = true)
    (hk : fc.files key = none) (hstat : fs.stat path = some st)
    (hread : fs.read path = some data) :
    fc.LoadFromPath fs key path false =
      (.ok { Key := key, Data := data, Stat := some st },
        (fc.store key { Key := key, Data := data }).store key
          { Key := key, Data := data, Stat := some st },
        [.stat path, .read path]) := by
  simp [fileCache.LoadFromPath, fileCache.NewFromData, store_useCache,
    hc, hk, hstat, hread]

/-- Claim C2: with bypass off and `overwrite = false`, a `LoadFromPath` on a
key already in the table returns the existing record unchanged with no
filesystem stat or read; consequently, after any successful `LoadFromPath`,
a second call with the same key returns the identical record, leaves the
state unchanged, and touches the filesystem no further. -/
theorem loadFromPath_idempotent (fc : fileCache) (fs : Fs) (key path : String)
    (hc : fc.useCache = true) :
    (∀ lf, fc.files key = some lf →
        fc.LoadFromPath fs key path false = (.ok lf, fc, [])) ∧
    (∀ r fc1 ops1, fc.LoadFromPath fs key path false = (.ok r, fc1, ops1) →
        fc1.LoadFromPath fs key path false = (.ok r, fc1, [])) := by
  refine ⟨fun lf hk => loadFromPath_hit fc fs key path lf hc hk,
    fun r fc1 ops1 h => ?_⟩
  cases hk : fc.files key with
  | some lf =>
    rw [loadFromPath_hit fc fs key path lf hc hk] at h
    rw [Prod.mk.injEq, Prod.mk.injEq, Except.ok.injEq] at h
    obtain ⟨rfl, rfl, -⟩ := h
    exact loadFromPath_hit fc fs key path lf hc hk
  | none =>
    cases hstat : fs.stat path with
    | none =>
      have hcall : fc.LoadFromPath fs key path false
          = (.error (.statFailed path), fc, [.stat path]) := by
        simp [fileCache.LoadFromPath, hc, hk, hstat]
      rw [hcall] at h
      simp at h
    | some st =>
      cases hread : fs.read path with
      | none =>
        have hcall : fc.LoadFromPath fs key path false
            = (.error (.readFailed path), fc, [.stat path, .read path]) := by
          simp [fileCache.LoadFromPath, hc, hk, hstat, hread]
        rw [hcall] at h
        simp at h
      | some data =>
        rw [loadFromPath_miss fc fs key path st data hc hk hstat hread] at h
        rw [Prod.mk.injEq, Prod.mk.injEq, Except.ok.injEq] at h
        obtain ⟨rfl, rfl, -⟩ := h
        refine loadFromPath_hit _ fs key path _ hc ?_
        simp [fileCache.store]

/-- Witness for claim C2: a cache-hit call and, after a fresh load, an
idempotent second call. -/
theorem loadFromPath_idempotent_witness :
    fcHit.LoadFromPath fsW "k" "p" false = (.ok lfOrig, fcHit, []) ∧
    fcLoaded.LoadFromPath fsW "k" "p" false = (.ok lfDisk, fcLoaded, []) :=
  ⟨(loadFromPath_idempotent fcHit fsW "k" "p" rfl).1 lfOrig rfl,
    (loadFromPath_idempotent fcFresh fsW "k" "p" rfl).2 lfDisk fcLoaded
      [.stat "p", .read "p"] rfl⟩

/-- Claim C3: with bypass off and `overwrite = false`, `NewFromData` on a key
already in the table fails with the key-in-use error and leaves the table
unchanged: the record mapped to the key afterwards is still the original
one. -/
theorem newFromData_collision_guard (fc : fileCache) (key : String)
    (data : List Char) (lf : LoadedFile) (hc : fc.useCache = true)
    (hk : fc.files key = some lf) :
    fc.NewFromData key data false = (.error (.keyInUse key), fc) ∧
    (fc.NewFromData key data false).2.files key = some lf := by
  constructor <;> simp [fileCache.NewFromData, hc, hk]

/-- Witness for claim C3. -/
theorem newFromData_collision_guard_witness :
    fcHit.NewFromData "k" "other".data false = (.error (.keyInUse "k"), fcHit) ∧
    (fcHit.NewFromData "k" "other".data false).2.files "k" = some lfOrig :=
  newFromData_collision_guard fcHit "k" "other".data lfOrig rfl rfl

/-- Claim C5: in bypass mode the table is never consulted nor populated:
`QueryKey` reports not-found regardless of the table, `LoadFromPath` always
stats (and, when the stat succeeds, reads) the filesystem and both leave the
state unchanged, the result of `LoadFromPath` does not depend on the table's
contents, and `NewFromData` succeeds without inserting anything. -/
theorem bypass_mode_no_table (fc : fileCache) (hc : fc.useCache = false) :
    (∀ key, fc.QueryKey key = (false, none)) ∧
    (∀ fs key path overwrite,
        (fc.LoadFromPath fs key path overwrite).2.1 = fc ∧
        ((fc.LoadFromPath fs key path overwrite).2.2).head?
            = some (.stat path) ∧
        (∀ st, fs.stat path = some st →
          (fc.LoadFromPath fs key path overwrite).2.2
              = [.stat path, .read path]) ∧
        (∀ g, (fileCache.LoadFromPath { files := g, useCache := false }
                fs key path overwrite).1
            = (fc.LoadFromPath fs key path overwrite).1)) ∧
    (∀ key data overwrite,
        fc.NewFromData key data overwrite
            = (.ok { Key := key, Data := data }, fc)) := by
  refine ⟨fun key => by simp [fileCache.QueryKey, hc],
    fun fs key path overwrite => ?_,
    fun key data overwrite => by simp [fileCache.NewFromData, hc]⟩
  cases hstat : fs.stat path with
  | none =>
    refine ⟨?_, ?_, ?_, ?_⟩
    · simp [fileCache.LoadFromPath, hc, hstat]
    · simp [fileCache.LoadFromPath, hc, hstat]
    · intro st hst
      cases hst
    · intro g
      simp [fileCache.LoadFromPath, hc, hstat]
  | some st =>
    cases hread : fs.read path with
    | none =>
      refine ⟨?_, ?_, ?_, ?_⟩
      · simp [fileCache.LoadFromPath, hc, hstat, hread]
      · simp [fileCache.LoadFromPath, hc, hstat, hread]
      · intro st2 hst
        simp [fileCache.LoadFromPath, hc, hstat, hread]
      · intro g
        simp [fileCache.LoadFromPath, hc, hstat, hread]
    | some data =>
      refine ⟨?_, ?_, ?_, ?_⟩
      · simp [fileCache.LoadFromPath, fileCache.NewFromData, hc, hstat, hread]
      · simp [fileCache.LoadFromPath, fileCache.NewFromData, hc, hstat, hread]
      · intro st2 hst
        simp [fileCache.LoadFromPath, fileCache.NewFromData, hc, hstat, hread]
      · intro g
        simp [fileCache.LoadFromPath, fileCache.NewFromData, hc, hstat, hread]

/-- Witness for claim C5, on a bypass-mode cache whose table holds a record
under the queried key. -/
theorem bypass_mode_no_table_witness :
    fcBypass.QueryKey "k" = (false, none) ∧
    fcBypass.NewFromData "k" "new".data false
        = (.ok { Key := "k", Data := "new".data }, fcBypass) :=
  ⟨(bypass_mode_no_table fcBypass rfl).1 "k",
    (bypass_mode_no_table fcBypass rfl).2.2 "k" "new".data false⟩

/-- Claim C9: divergence in the lock discipline — the map write of
`NewFromData` does run under `fc.mu`, but the map reads of `QueryKey`, of the
cached-hit check in `LoadFromPath`, and of the collision check in
`NewFromData` all run with the lock not held, so table reads are not
serialized with respect to the writer. -/
theorem table_reads_unlocked :
    fcFresh.QueryKeyTrace "k" = [(.mapRead "k", false)] ∧
    fcFresh.NewFromDataTrace "k" false
        = [(.mapRead "k", false), (.mapWrite "k", true)] ∧
    fcFresh.LoadFromPathTrace fsW "k" "p" false
        = [(.mapRead "k", false), (.fsStat "p", false), (.fsRead "p", false),
            (.mapRead "k", false), (.mapWrite "k", true)] := by
  decide

end Golib

namespace Golib.FlagRev

/-- Claim C8, counterexample: in the intermediate flag revision, with
`DisallowKeyCollision` unset and `overwrite = false`, a `NewFromData` whose
key is already in use fails with the key-in-use error and stores nothing
(the original record stays), and even a fresh key fails — refuting "the call
succeeds and stores the new record over the existing one". -/
theorem flagrev_collision_rejected :
    (flagCache.NewFromData "k" "other".data false).1 = .error (.keyInUse "k") ∧
    (flagCache.NewFromData "k" "other".data false).2.files "k" = some lfOrig ∧
    (flagCache.NewFromData "fresh" "d".data false).1
        = .error (.keyInUse "fresh") := by
  decide

/-- Claim C8, amended: in the intermediate flag revision, when
`DisallowKeyCollision` is unset and `overwrite` is false, `NewFromData`
always fails with the key-in-use error and leaves the table unchanged —
whether or not the key is present — because the collision check has an empty
body and the error return is unconditional; the store (silently clobbering
any existing record) happens only when `overwrite` is true (or the flag is
set). -/
theorem flagrev_newFromData_always_fails (fc : FlagRev.fileCache)
    (key : String) (data : List Char)
    (hflag : fc.DisallowKeyCollision = false) :
    fc.NewFromData key data false = (.error (.keyInUse key), fc) ∧
    (∀ data2, fc.NewFromData key data2 true =
        (.ok { Key := key, Data := data2 },
          { fc with files := fun k =>
              if k = key then some { Key := key, Data := data2 }
              else fc.files k })) := by
  constructor
  · simp [FlagRev.fileCache.NewFromData, hflag]
  · intro data2
    simp [FlagRev.fileCache.NewFromData, hflag]

/-- Witness for the amended claim C8, on the flag-revision cache holding a
record under `"k"`. -/
theorem flagrev_newFromData_always_fails_witness :
    flagCache.NewFromData "fresh" "d".data false
        = (.error (.keyInUse "fresh"), flagCache) ∧
    flagCache.NewFromData "k" "other".data true =
        (.ok { Key := "k", Data := "other".data },
          { flagCache with files := fun k =>
              if k = "k" then some { Key := "k", Data := "other".data }
              else flagCache.files k }) :=
  ⟨(flagrev_newFromData_always_fails flagCache "fresh" "d".data rfl).1,
    (flagrev_newFromData_always_fails flagCache "k" "other".data rfl).2
      "other".data⟩

end Golib.FlagRev
